import Mathlib

/-!
# go_tz: the data-access layer of the vehicle registry

A shallow embedding of `models/person.go`, `models/car.go`, the query
construction of `db/cars.go` and the parameter hand-over of `http/api.go`.

Go strings are Lean `String`s, Go `int` is `Int` (the code only compares these
integers with zero, it never does arithmetic on them), `len(args)+1` is a `Nat`,
and `interface` values passed as query arguments are the sum type `Value`.
`fmt.Sprintf` with `%s` and `%d` is string concatenation with `toString` on the
number.
-/

namespace GoTz

/-! ## models/person.go -/

/-- Go struct `PersonRequest`. -/
structure PersonRequest where
  Name : String
  Surname : String
deriving DecidableEq, Repr

/-- Go struct `PersonResponse`: embeds `PersonRequest` and adds `ID`. -/
structure PersonResponse extends PersonRequest where
  ID : String
deriving DecidableEq, Repr

/-- The zero value of `PersonResponse`, written `PersonResponse` with empty braces in Go. -/
def PersonResponse.zero : PersonResponse := ⟨⟨"", ""⟩, ""⟩

/-! ## models/car.go -/

/-- Go struct `CarRequest`. -/
structure CarRequest where
  RegNum : String
  Mark : String
  Model : String
  Year : Int
  Owner : PersonRequest
deriving DecidableEq, Repr

/-- Go struct `CarResponse`. -/
structure CarResponse where
  RegNum : String
  Mark : String
  Model : String
  Year : Int
  Owner : PersonResponse
  ID : String
deriving DecidableEq, Repr

/-- Go `type CarFilter string`: a defined string type, every string converts to it. -/
abbrev CarFilter := String

namespace models

/-- Go `var ID CarFilter`. -/
def ID : CarFilter := "id"
/-- Go `var RegNum CarFilter`. -/
def RegNum : CarFilter := "reg_number"
/-- Go `var Mark CarFilter`. -/
def Mark : CarFilter := "mark"
/-- Go `var Model CarFilter`. -/
def Model : CarFilter := "model"
/-- Go `var Year CarFilter`. -/
def Year : CarFilter := "year"
/-- Go `var Owner CarFilter`. -/
def Owner : CarFilter := "owner"

/-- The six field names declared in `models/car.go`. -/
def fieldNames : List CarFilter := [ID, RegNum, Mark, Model, Year, Owner]

end models

/-- A value stored in a Go `interface` slot: the code puts strings, ints and
`PersonResponse` structs into update maps and argument lists. -/
inductive Value where
  | str (s : String)
  | int (i : Int)
  | person (p : PersonResponse)
deriving DecidableEq, Repr

/-! ## db/cars.go: GetCars -/

/-- The initial query text of `GetCars`. -/
def getCarsBase : String :=
  "SELECT c.id, c.reg_number, c.mark, c.model, c.year, p.id, p.name, p.surname FROM cars c INNER JOIN person p ON c.owner = p.id"

/-- The query text and the argument list that `GetCars` hands to `r.db.Query`
(lines 57 to 74 of `db/cars.go`). -/
def GetCarsQuery (filter : CarFilter) (search : String) (limit offset : Int) :
    String × List Value :=
  let args : List Value := []
  let query := getCarsBase
  let (query, args) :=
    if filter ≠ "" ∧ search ≠ "" then
      (query ++ (" WHERE c." ++ filter ++ " = $1"), args ++ [Value.str search])
    else (query, args)
  let (query, args) :=
    if limit > 0 then
      (query ++ (" LIMIT $" ++ toString (args.length + 1)), args ++ [Value.int limit])
    else (query, args)
  let (query, args) :=
    if offset > 0 then
      (query ++ (" OFFSET $" ++ toString (args.length + 1)), args ++ [Value.int offset])
    else (query, args)
  (query, args)

/-- One clause that `GetCars` appends to the base query: the filter predicate,
whose placeholder is the literal `$1`, or a pagination clause with the number of the
placeholder computed for it. -/
inductive Clause where
  | whereEq (column : String)
  | limit (ph : Nat)
  | offset (ph : Nat)
deriving DecidableEq, Repr

/-- The text of a clause, as `fmt.Sprintf` writes it in `GetCars`. -/
def Clause.render : Clause → String
  | .whereEq column => " WHERE c." ++ column ++ " = $1"
  | .limit ph => " LIMIT $" ++ toString ph
  | .offset ph => " OFFSET $" ++ toString ph

/-- The clauses `GetCars` appends, in order: the same three guards as
`GetCarsQuery` (lines 61, 66 and 71), each clause carrying the placeholder number
the code computes for it (`len(args)+1`). -/
def GetCarsClauses (filter : CarFilter) (search : String) (limit offset : Int) :
    List Clause :=
  let nargs : Nat := 0
  let clauses : List Clause := []
  let (clauses, nargs) :=
    if filter ≠ "" ∧ search ≠ "" then (clauses ++ [Clause.whereEq filter], nargs + 1)
    else (clauses, nargs)
  let (clauses, nargs) :=
    if limit > 0 then (clauses ++ [Clause.limit (nargs + 1)], nargs + 1)
    else (clauses, nargs)
  let (clauses, _) :=
    if offset > 0 then (clauses ++ [Clause.offset (nargs + 1)], nargs + 1)
    else (clauses, nargs)
  clauses

/-- The row count bound to placeholder `ph` (numbered from 1) by an argument list. -/
def boundCount (args : List Value) (ph : Nat) : Option Nat :=
  match ph with
  | 0 => none
  | k + 1 =>
    match args.get? k with
    | some (Value.int i) => if 0 ≤ i then some i.toNat else none
    | _ => none

/-- The placeholder of the `OFFSET` clause of a clause list, if there is one. -/
def offsetClause : List Clause → Option Nat
  | [] => none
  | Clause.offset ph :: _ => some ph
  | _ :: cs => offsetClause cs

/-- The placeholder of the `LIMIT` clause of a clause list, if there is one. -/
def limitClause : List Clause → Option Nat
  | [] => none
  | Clause.limit ph :: _ => some ph
  | _ :: cs => limitClause cs

/-- The rows a query with the given pagination clauses and arguments selects from
the ordered list `R` of rows matching its filter: `OFFSET m` drops the first `m`
rows, `LIMIT n` keeps the first `n` of what remains, an absent clause leaves the
rows unchanged. `none` when a placeholder is not bound to a row count. -/
def selectRows {α : Type} (clauses : List Clause) (args : List Value) (R : List α) :
    Option (List α) :=
  let afterOffset : Option (List α) :=
    match offsetClause clauses with
    | none => some R
    | some ph => (boundCount args ph).map (fun m => R.drop m)
  match afterOffset with
  | none => none
  | some R1 =>
    match limitClause clauses with
    | none => some R1
    | some ph => (boundCount args ph).map (fun n => R1.take n)

/-! ## http/api.go: CarService.GetCars -/

/-- The query that results from a request to `CarService.GetCars`: `filter` and
`search` are the raw URL parameters, `limit` and `offset` the results of
`strconv.Atoi`, and the filter is converted with `models.CarFilter(filter)`, which
is the identity on the underlying string (lines 125 to 131 of `http/api.go`). -/
def CarService.GetCars (filter search : String) (limit offset : Int) :
    String × List Value :=
  GetCarsQuery (filter : CarFilter) search limit offset

/-! ## models/car.go: ValueToUpdate -/

/-- A Go `map[CarFilter]interface`, kept as its entries in insertion order. -/
structure GoMap where
  entries : List (CarFilter × Value)
deriving DecidableEq, Repr

/-- Go `make(map[CarFilter]interface)`. -/
def GoMap.make : GoMap := ⟨[]⟩

/-- Go map assignment `m[k] = v`: replaces the value of an existing key, adds the
entry otherwise. -/
def GoMap.set (m : GoMap) (k : CarFilter) (v : Value) : GoMap :=
  if m.entries.any (fun e => e.1 == k) then
    ⟨m.entries.map (fun e => if e.1 == k then (k, v) else e)⟩
  else ⟨m.entries ++ [(k, v)]⟩

/-- Go map lookup `m[k]` with the presence flag. -/
def GoMap.get? (m : GoMap) (k : CarFilter) : Option Value :=
  m.entries.lookup k

/-- Go method `CarResponse.ValueToUpdate`. -/
def CarResponse.ValueToUpdate (c : CarResponse) : GoMap :=
  let values := GoMap.make
  let values := if c.RegNum ≠ "" then values.set models.RegNum (Value.str c.RegNum) else values
  let values := if c.Mark ≠ "" then values.set models.Mark (Value.str c.Mark) else values
  let values := if c.Model ≠ "" then values.set models.Model (Value.str c.Model) else values
  let values := if c.Year ≠ 0 then values.set models.Year (Value.int c.Year) else values
  let values :=
    if c.Owner ≠ PersonResponse.zero then values.set models.Owner (Value.person c.Owner)
    else values
  values

/-! ## db/cars.go: UpdateCar -/

/-- The text of the statement against `person` that `UpdateCar` may append. -/
def personUpdate : String := "UPDATE person SET name = $1, surname = $2 WHERE id = $3"

/-- One iteration of the `range` loop of `UpdateCar` (lines 145 to 152) on the
builder text, the argument list and the counter `i`. -/
def updateStep (st : String × List Value × Nat) (kv : CarFilter × Value) :
    String × List Value × Nat :=
  let (query, args, i) := st
  let query := if i > 1 then query ++ ", " else query
  let query := query ++ (kv.1 ++ " = $" ++ toString i)
  (query, args ++ [kv.2], i + 1)

/-- The state of `UpdateCar` after line 155: the builder text holding the first
statement and the complete argument list. `entries` is the sequence in which
`range car.ValueToUpdate()` yields the entries of the map. -/
def UpdateCarFirst (entries : List (CarFilter × Value)) (car : CarResponse) :
    String × List Value :=
  let (query, args, i) := entries.foldl updateStep ("UPDATE cars SET ", [], 1)
  let query := query ++ (" WHERE id = $" ++ toString i ++ "; ")
  let args := args ++ [Value.str car.ID]
  (query, args)

/-- The query text and the argument list that `UpdateCar` hands to `r.db.Exec`
(lines 139 to 159). -/
def UpdateCarQuery (entries : List (CarFilter × Value)) (car : CarResponse) :
    String × List Value :=
  let (query, args) := UpdateCarFirst entries car
  let query :=
    if car.Owner.Name ≠ "" ∧ car.Owner.Surname ≠ "" then query ++ personUpdate else query
  (query, args)

/-- Go method `carRepository.UpdateCar`, with `r.db.Exec` as the oracle `exec`
that answers a query text and an argument list with an error or with the number of
affected rows. The result is the returned Go error, `none` for `nil`. -/
def UpdateCar (exec : String → List Value → Except String Int)
    (entries : List (CarFilter × Value)) (car : CarResponse) : Option String :=
  let (query, args) := UpdateCarQuery entries car
  match exec query args with
  | .error err => some err
  | .ok rowsAffected =>
    if rowsAffected = 0 then some ("car with id " ++ car.ID ++ " not found") else none

/-- The second statement is emitted: the text handed to `Exec` is the first
statement followed by the statement against `person`. -/
def emitsPersonUpdate (entries : List (CarFilter × Value)) (car : CarResponse) : Prop :=
  (UpdateCarQuery entries car).1 = (UpdateCarFirst entries car).1 ++ personUpdate

instance (entries : List (CarFilter × Value)) (car : CarResponse) :
    Decidable (emitsPersonUpdate entries car) := by
  unfold emitsPersonUpdate
  infer_instance

/-- The assignments of the first statement as the specification words them: for
the i-th key k (counting from 1) the text `k = $i`. -/
def assignments (entries : List (CarFilter × Value)) : List String :=
  (entries.enumFrom 1).map (fun p => p.2.1 ++ " = $" ++ toString p.1)

/-! ## db/cars.go: InsertCar over an explicit store -/

/-- A row of table `person`. -/
structure PersonRow where
  id : String
  name : String
  surname : String
deriving DecidableEq, Repr

/-- A row of table `cars`. -/
structure CarRow where
  id : String
  reg_number : String
  mark : String
  model : String
  year : Int
  owner : String
deriving DecidableEq, Repr

/-- The two tables, each as the list of its rows in insertion order. -/
structure Store where
  person : List PersonRow
  cars : List CarRow
deriving DecidableEq, Repr

/-- Storage failures of the three calls of `InsertCar`, chosen from outside:
`some e` makes the call fail with error `e` and leave the store unchanged. -/
structure Faults where
  selectPerson : Option String
  insertPerson : Option String
  insertCar : Option String
deriving DecidableEq, Repr

/-- No storage failure. -/
def Faults.none : Faults := ⟨Option.none, Option.none, Option.none⟩

/-- The error of `QueryRow(...).Scan`: `pgx.ErrNoRows` or another error. -/
inductive ScanError where
  | errNoRows
  | other (e : String)
deriving DecidableEq, Repr

/-- The query `SELECT id FROM person WHERE name = $1 AND surname = $2` scanned into
one id: the first matching row, `pgx.ErrNoRows` when there is none. -/
def selectPersonID (st : Store) (name surname : String) : Except ScanError String :=
  match st.person.find? (fun p => p.name = name ∧ p.surname = surname) with
  | some p => .ok p.id
  | none => .error ScanError.errNoRows

/-- Go method `carRepository.InsertCar` on the explicit store. `newPersonID` is
the result of `uuid.NewString()` and `newCarID` that of `uuid.NewRandom()`. The
result is the store afterwards and the returned Go error, `none` for `nil`. -/
def InsertCar (fl : Faults) (st : Store) (car : CarRequest)
    (newPersonID newCarID : String) : Store × Option String :=
  let scan : Except ScanError String :=
    match fl.selectPerson with
    | some e => .error (ScanError.other e)
    | none => selectPersonID st car.Owner.Name car.Owner.Surname
  let resolved : Except String (Store × String) :=
    match scan with
    | .ok personID => .ok (st, personID)
    | .error ScanError.errNoRows =>
      match fl.insertPerson with
      | some e => .error e
      | none =>
        .ok (⟨st.person ++ [⟨newPersonID, car.Owner.Name, car.Owner.Surname⟩], st.cars⟩,
          newPersonID)
    | .error (ScanError.other e) => .error e
  match resolved with
  | .error e => (st, some e)
  | .ok (st1, personID) =>
    match fl.insertCar with
    | some e => (st1, some e)
    | none =>
      (⟨st1.person,
        st1.cars ++ [⟨newCarID, car.RegNum, car.Mark, car.Model, car.Year, personID⟩]⟩,
        Option.none)

/-- The (name, surname) pairs of the person rows, in row order. -/
def ownerKeys (st : Store) : List (String × String) :=
  st.person.map (fun p => (p.name, p.surname))

/-! ### Reading the placeholders of a query text -/

/-- The number written by a run of decimal digits. -/
def digitsValue (ds : List Char) : Nat :=
  ds.foldl (fun n d => 10 * n + (d.toNat - 48)) 0

/-- The positional placeholders of a text, in order of appearance: every `$`
that is followed by at least one decimal digit, read with its maximal digit run. -/
def placeholders : List Char → List Nat
  | [] => []
  | c :: cs =>
    if c = '$' then
      match cs.takeWhile Char.isDigit with
      | [] => placeholders cs
      | d :: ds => digitsValue (d :: ds) :: placeholders cs
    else placeholders cs

set_option maxRecDepth 100000

/-! ## Auxiliary lemmas -/

theorem placeholders_append_left (a b : List Char) (h : '$' ∉ a) :
    placeholders (a ++ b) = placeholders b := by
  induction a with
  | nil => rfl
  | cons c cs ih =>
    have hc : c ≠ '$' := fun e => h (by simp [e])
    have hcs : '$' ∉ cs := fun e => h (by simp [e])
    simp [placeholders, hc, ih hcs]

theorem getCarsBase_no_dollar : '$' ∉ getCarsBase.data := by decide

/-- The result of `GetCarsQuery` in closed form. -/
theorem GetCarsQuery_eq (f s : String) (l o : Int) :
    GetCarsQuery f s l o =
      (getCarsBase
        ++ (if f ≠ "" ∧ s ≠ "" then " WHERE c." ++ f ++ " = $1" else "")
        ++ (if l > 0 then " LIMIT $" ++ toString ((if f ≠ "" ∧ s ≠ "" then 1 else 0) + 1) else "")
        ++ (if o > 0 then " OFFSET $" ++
              toString ((if f ≠ "" ∧ s ≠ "" then 1 else 0) + (if l > 0 then 1 else 0) + 1) else ""),
       (if f ≠ "" ∧ s ≠ "" then [Value.str s] else [])
        ++ (if l > 0 then [Value.int l] else [])
        ++ (if o > 0 then [Value.int o] else [])) := by
  unfold GetCarsQuery
  by_cases hw : f ≠ "" ∧ s ≠ "" <;> by_cases hl : l > 0 <;> by_cases ho : o > 0 <;>
    simp [hw, hl, ho, String.append_assoc]

theorem GetCarsQuery_placeholders (f s : String) (l o : Int) (h : '$' ∉ f.data) :
    placeholders (GetCarsQuery f s l o).1.data
      = List.range' 1 (GetCarsQuery f s l o).2.length := by
  rw [GetCarsQuery_eq]
  by_cases hw : f ≠ "" ∧ s ≠ "" <;> by_cases hl : l > 0 <;> by_cases ho : o > 0 <;>
    simp only [hw, hl, ho, if_true, if_false, String.data_append, List.append_assoc,
      not_false_eq_true, and_self, ne_eq] <;>
    rw [placeholders_append_left _ _ getCarsBase_no_dollar] <;>
    first
      | rfl
      | (rw [placeholders_append_left _ _ (by decide), placeholders_append_left _ _ h]; rfl)

theorem fieldNames_no_dollar (f : String) (h : f ∈ models.fieldNames) : '$' ∉ f.data := by
  simp only [models.fieldNames, List.mem_cons, List.mem_singleton, List.not_mem_nil,
    or_false] at h
  rcases h with h | h | h | h | h | h <;> subst h <;> decide

/-- The text `GetCars` builds is the base query followed by the rendering of the
clauses of `GetCarsClauses`, in order. -/
theorem GetCarsClauses_render (f s : String) (l o : Int) :
    (GetCarsQuery f s l o).1
      = getCarsBase ++ String.join ((GetCarsClauses f s l o).map Clause.render) := by
  unfold GetCarsQuery GetCarsClauses
  by_cases hw : f ≠ "" ∧ s ≠ "" <;> by_cases hl : l > 0 <;> by_cases ho : o > 0 <;>
    simp [hw, hl, ho, String.append_assoc, Clause.render, String.join]

/-- The entries of `ValueToUpdate` in closed form. -/
theorem ValueToUpdate_entries_eq (c : CarResponse) :
    c.ValueToUpdate.entries =
      (if c.RegNum ≠ "" then [(models.RegNum, Value.str c.RegNum)] else [])
      ++ (if c.Mark ≠ "" then [(models.Mark, Value.str c.Mark)] else [])
      ++ (if c.Model ≠ "" then [(models.Model, Value.str c.Model)] else [])
      ++ (if c.Year ≠ 0 then [(models.Year, Value.int c.Year)] else [])
      ++ (if c.Owner ≠ PersonResponse.zero then [(models.Owner, Value.person c.Owner)]
          else []) := by
  unfold CarResponse.ValueToUpdate
  by_cases h1 : c.RegNum = "" <;> by_cases h2 : c.Mark = "" <;> by_cases h3 : c.Model = "" <;>
    by_cases h4 : c.Year = 0 <;> by_cases h5 : c.Owner = PersonResponse.zero <;>
    simp [h1, h2, h3, h4, h5, GoMap.set, GoMap.make, models.RegNum, models.Mark,
      models.Model, models.Year, models.Owner]

theorem ValueToUpdate_keys_nodup (c : CarResponse) :
    (c.ValueToUpdate.entries.map Prod.fst).Nodup := by
  rw [ValueToUpdate_entries_eq]
  by_cases h1 : c.RegNum = "" <;> by_cases h2 : c.Mark = "" <;> by_cases h3 : c.Model = "" <;>
    by_cases h4 : c.Year = 0 <;> by_cases h5 : c.Owner = PersonResponse.zero <;>
    simp [h1, h2, h3, h4, h5, models.RegNum, models.Mark, models.Model, models.Year,
      models.Owner]

theorem lookup_of_mem_of_nodup (l : List (CarFilter × Value))
    (h : (l.map Prod.fst).Nodup) (k : CarFilter) (v : Value) (hm : (k, v) ∈ l) :
    l.lookup k = some v := by
  induction l with
  | nil => simp at hm
  | cons e t ih =>
    obtain ⟨k1, v1⟩ := e
    simp only [List.map_cons, List.nodup_cons, List.mem_map, Prod.exists, exists_and_right,
      exists_eq_right, not_exists] at h
    rcases List.mem_cons.mp hm with heq | hmem
    · cases heq
      simp [List.lookup]
    · have hne : k ≠ k1 := fun e => h.1 v (e ▸ hmem)
      have hb : (k == k1) = false := by simpa using hne
      simp only [List.lookup, hb]
      exact ih h.2 hmem

theorem intercalate_go_append (p acc sep : String) (xs : List String) :
    String.intercalate.go (p ++ acc) sep xs = p ++ String.intercalate.go acc sep xs := by
  induction xs generalizing acc with
  | nil => simp [String.intercalate.go]
  | cons x xs ih =>
    simp only [String.intercalate.go]
    rw [String.append_assoc p acc sep, String.append_assoc p (acc ++ sep) x, ih]

/-- The `range` loop of `UpdateCar` from a counter above 1: every entry adds a
separator and its assignment to the text and its value to the arguments. -/
theorem updateStep_foldl (entries : List (CarFilter × Value)) (q : String)
    (a : List Value) (i : Nat) (hi : 1 < i) :
    entries.foldl updateStep (q, a, i)
      = (String.intercalate.go q ", "
          ((entries.enumFrom i).map (fun p => p.2.1 ++ " = $" ++ toString p.1)),
         a ++ entries.map Prod.snd, i + entries.length) := by
  induction entries generalizing q a i with
  | nil => simp [String.intercalate.go]
  | cons kv rest ih =>
    simp only [List.foldl_cons, updateStep, hi, if_true, List.enumFrom_cons, List.map_cons,
      String.intercalate.go, List.length_cons]
    rw [ih _ _ _ (Nat.lt_succ_of_lt hi)]
    simp [String.append_assoc, Nat.add_comm, Nat.add_left_comm]

/-- The first statement and the argument list of `UpdateCar` in closed form. -/
theorem UpdateCarFirst_eq (entries : List (CarFilter × Value)) (c : CarResponse) :
    UpdateCarFirst entries c
      = ("UPDATE cars SET " ++ ", ".intercalate (assignments entries)
            ++ " WHERE id = $" ++ toString (entries.length + 1) ++ "; ",
         entries.map Prod.snd ++ [Value.str c.ID]) := by
  unfold UpdateCarFirst assignments
  cases entries with
  | nil => rfl
  | cons kv rest =>
    simp only [List.foldl_cons, updateStep, Nat.lt_irrefl, if_false, List.enumFrom_cons,
      List.map_cons, String.intercalate, List.length_cons]
    rw [updateStep_foldl _ _ _ _ (by decide), intercalate_go_append]
    simp [String.append_assoc, Nat.add_comm, Nat.add_left_comm]

theorem UpdateCarQuery_eq (entries : List (CarFilter × Value)) (c : CarResponse) :
    UpdateCarQuery entries c
      = ((UpdateCarFirst entries c).1
            ++ (if c.Owner.Name ≠ "" ∧ c.Owner.Surname ≠ "" then personUpdate else ""),
         (UpdateCarFirst entries c).2) := by
  unfold UpdateCarQuery
  by_cases h : c.Owner.Name ≠ "" ∧ c.Owner.Surname ≠ "" <;> simp [h]

/-- The person rows after `InsertCar`: unchanged, or one row appended for an
owner that no row matched. -/
theorem InsertCar_person (fl : Faults) (st : Store) (car : CarRequest) (pid cid : String) :
    (InsertCar fl st car pid cid).1.person = st.person
    ∨ ((∀ p ∈ st.person, ¬ (p.name = car.Owner.Name ∧ p.surname = car.Owner.Surname))
        ∧ (InsertCar fl st car pid cid).1.person
            = st.person ++ [⟨pid, car.Owner.Name, car.Owner.Surname⟩]) := by
  obtain ⟨fs, fp, fc⟩ := fl
  cases hf : st.person.find? (fun p => p.name = car.Owner.Name ∧ p.surname = car.Owner.Surname) with
  | some p =>
    left
    cases fs <;> cases fp <;> cases fc <;> simp only [InsertCar, selectPersonID, hf]
  | none =>
    have hno : ∀ p ∈ st.person, ¬ (p.name = car.Owner.Name ∧ p.surname = car.Owner.Surname) := by
      intro p hp
      have := List.find?_eq_none.mp hf p hp
      simpa using this
    cases fs <;> cases fp <;> cases fc <;> simp only [InsertCar, selectPersonID, hf] <;>
      first
        | exact Or.inl rfl
        | exact Or.inr ⟨hno, rfl⟩
        | (simp only [true_or])
        | (simp
           exact fun p hp h1 h2 => hno p hp ⟨h1, h2⟩)

/-- `InsertCar` without storage failure for an owner that no person row matches. -/
theorem InsertCar_absent (st : Store) (car : CarRequest) (pid cid : String)
    (h : (car.Owner.Name, car.Owner.Surname) ∉ ownerKeys st) :
    InsertCar Faults.none st car pid cid
      = (⟨st.person ++ [⟨pid, car.Owner.Name, car.Owner.Surname⟩],
          st.cars ++ [⟨cid, car.RegNum, car.Mark, car.Model, car.Year, pid⟩]⟩, none) := by
  have hf : st.person.find? (fun p => p.name = car.Owner.Name ∧ p.surname = car.Owner.Surname)
      = none := by
    rw [List.find?_eq_none]
    intro p hp hm
    apply h
    simp only [decide_eq_true_eq] at hm
    simp only [ownerKeys, List.mem_map]
    exact ⟨p, hp, by rw [hm.1, hm.2]⟩
  simp only [InsertCar, selectPersonID, hf, Faults.none]

/-- `InsertCar` without storage failure when the first matching person row is `p`. -/
theorem InsertCar_found (st : Store) (car : CarRequest) (pid cid : String) (p : PersonRow)
    (h : st.person.find? (fun p => p.name = car.Owner.Name ∧ p.surname = car.Owner.Surname)
      = some p) :
    InsertCar Faults.none st car pid cid
      = (⟨st.person,
          st.cars ++ [⟨cid, car.RegNum, car.Mark, car.Model, car.Year, p.id⟩]⟩, none) := by
  simp only [InsertCar, selectPersonID, h, Faults.none]

/-! ## GetCars -/

/-- C1 (amended): for every filter f, search string s, limit l and offset o the
query text of GetCars is the base SELECT, followed by the WHERE predicate on f with
placeholder 1 iff f and s are non-empty, followed by LIMIT iff l > 0, followed by
OFFSET iff o > 0, each with the placeholder numbered one more than the arguments
appended before it; the arguments are s, l and o under the same conditions, in this
order. When f contains no dollar sign, in particular when f is one of the six
declared field names, the placeholders of the text are exactly 1..n for n the number
of arguments. With no filter, l <= 0 and o <= 0 the text is the base query and the
argument list is empty. -/
theorem GetCars_query_and_args (f s : String) (l o : Int) :
    (GetCarsQuery f s l o).1 =
        getCarsBase
          ++ (if f ≠ "" ∧ s ≠ "" then " WHERE c." ++ f ++ " = $1" else "")
          ++ (if l > 0 then
                " LIMIT $" ++ toString ((if f ≠ "" ∧ s ≠ "" then [Value.str s] else []).length + 1)
              else "")
          ++ (if o > 0 then
                " OFFSET $" ++ toString (((if f ≠ "" ∧ s ≠ "" then [Value.str s] else [])
                    ++ (if l > 0 then [Value.int l] else [])).length + 1)
              else "")
    ∧ (GetCarsQuery f s l o).2 =
        (if f ≠ "" ∧ s ≠ "" then [Value.str s] else [])
          ++ (if l > 0 then [Value.int l] else [])
          ++ (if o > 0 then [Value.int o] else [])
    ∧ ('$' ∉ f.data →
        placeholders (GetCarsQuery f s l o).1.data
          = List.range' 1 (GetCarsQuery f s l o).2.length)
    ∧ (f ∈ models.fieldNames →
        placeholders (GetCarsQuery f s l o).1.data
          = List.range' 1 (GetCarsQuery f s l o).2.length)
    ∧ (f = "" → l ≤ 0 → o ≤ 0 → GetCarsQuery f s l o = (getCarsBase, [])) := by
  refine ⟨?_, ?_, GetCarsQuery_placeholders f s l o,
    fun h => GetCarsQuery_placeholders f s l o (fieldNames_no_dollar f h), ?_⟩
  · rw [GetCarsQuery_eq]
    by_cases hw : f ≠ "" ∧ s ≠ "" <;> by_cases hl : l > 0 <;> simp [hw, hl]
  · rw [GetCarsQuery_eq]
  · intro hf hl ho
    rw [GetCarsQuery_eq]
    simp [hf, not_lt.mpr hl, not_lt.mpr ho]

/-- Witness of C1 at filter mark, search Toyota, limit 5, offset 10, and at the
empty request. -/
theorem GetCars_query_and_args_witness :
    ('$' ∉ "mark".data ∧ "mark" ∈ models.fieldNames
      ∧ placeholders (GetCarsQuery "mark" "Toyota" 5 10).1.data = [1, 2, 3])
    ∧ GetCarsQuery "" "" 0 0 = (getCarsBase, []) :=
  ⟨⟨by decide, by decide,
    (GetCars_query_and_args "mark" "Toyota" 5 10).2.2.1 (by decide)⟩,
   (GetCars_query_and_args "" "" 0 0).2.2.2.2 rfl (by decide) (by decide)⟩

/-- C1 as stated fails: with a filter that itself holds a placeholder the text has
the placeholders 2 and 1 while the argument list has the single element x. -/
theorem GetCars_placeholders_counterexample :
    (GetCarsQuery "year = $2 OR c.year" "x" 0 0).1
        = getCarsBase ++ " WHERE c.year = $2 OR c.year = $1"
    ∧ (GetCarsQuery "year = $2 OR c.year" "x" 0 0).2 = [Value.str "x"]
    ∧ placeholders (GetCarsQuery "year = $2 OR c.year" "x" 0 0).1.data = [2, 1]
    ∧ placeholders (GetCarsQuery "year = $2 OR c.year" "x" 0 0).1.data
        ≠ List.range' 1 (GetCarsQuery "year = $2 OR c.year" "x" 0 0).2.length := by
  decide

/-- C4 at the failing input: a request whose filter parameter is not one of the six
declared field names reaches the query text unchanged. -/
theorem GetCars_filter_reaches_text :
    "id IS NOT NULL OR c.id" ∉ models.fieldNames
    ∧ (CarService.GetCars "id IS NOT NULL OR c.id" "x" 0 0).1
        = getCarsBase ++ " WHERE c.id IS NOT NULL OR c.id = $1"
    ∧ (CarService.GetCars "id IS NOT NULL OR c.id" "x" 0 0).2 = [Value.str "x"] := by
  decide

/-- C5: for every filter f, two runs of GetCars that differ only in the search
value (both non-empty), only in the limit (both > 0) or only in the offset
(both > 0) build the same query text; the search value, the limit and the offset
occur in the argument list, which is s, l, o restricted to the clauses present. -/
theorem GetCars_text_independent_of_values (f : String) :
    (∀ (s1 s2 : String) (l o : Int), s1 ≠ "" → s2 ≠ "" →
        (GetCarsQuery f s1 l o).1 = (GetCarsQuery f s2 l o).1)
    ∧ (∀ (s : String) (l1 l2 o : Int), l1 > 0 → l2 > 0 →
        (GetCarsQuery f s l1 o).1 = (GetCarsQuery f s l2 o).1)
    ∧ (∀ (s : String) (l o1 o2 : Int), o1 > 0 → o2 > 0 →
        (GetCarsQuery f s l o1).1 = (GetCarsQuery f s l o2).1)
    ∧ (∀ (s : String) (l o : Int),
        (GetCarsQuery f s l o).2 =
          (if f ≠ "" ∧ s ≠ "" then [Value.str s] else [])
            ++ (if l > 0 then [Value.int l] else [])
            ++ (if o > 0 then [Value.int o] else [])) := by
  refine ⟨?_, ?_, ?_, ?_⟩
  · intro s1 s2 l o h1 h2
    simp [GetCarsQuery_eq, h1, h2]
  · intro s l1 l2 o h1 h2
    simp [GetCarsQuery_eq, h1, h2]
  · intro s l o1 o2 h1 h2
    simp [GetCarsQuery_eq, h1, h2]
  · intro s l o
    rw [GetCarsQuery_eq]

/-- Witness of C5: searches Toyota and Honda, limits 5 and 7, offsets 10 and 20. -/
theorem GetCars_text_independent_of_values_witness :
    (GetCarsQuery "mark" "Toyota" 5 10).1 = (GetCarsQuery "mark" "Honda" 5 10).1
    ∧ (GetCarsQuery "mark" "Toyota" 5 10).1 = (GetCarsQuery "mark" "Toyota" 7 10).1
    ∧ (GetCarsQuery "mark" "Toyota" 5 10).1 = (GetCarsQuery "mark" "Toyota" 5 20).1 :=
  ⟨(GetCars_text_independent_of_values "mark").1 "Toyota" "Honda" 5 10 (by decide) (by decide),
   (GetCars_text_independent_of_values "mark").2.1 "Toyota" 5 7 10 (by decide) (by decide),
   (GetCars_text_independent_of_values "mark").2.2.1 "Toyota" 5 10 20 (by decide) (by decide)⟩

/-- C9 (amended): interpreting the clauses GetCars builds over the ordered list R
of the rows matching the filter, for every limit L > 0 and offset O >= 0 the rows
selected are the slice of R at positions O up to O+L; for L = 0 no LIMIT clause is
built and the rows selected are all rows of R from position O on. -/
theorem GetCars_selects_slice {α : Type} (f s : String) (L O : Nat) (R : List α) :
    selectRows (GetCarsClauses f s L O) (GetCarsQuery f s L O).2 R
      = some (if 0 < L then (R.drop O).take L else R.drop O) := by
  rw [GetCarsQuery_eq]
  unfold GetCarsClauses
  by_cases hw : f ≠ "" ∧ s ≠ "" <;> rcases Nat.eq_zero_or_pos L with hl | hl <;>
    rcases Nat.eq_zero_or_pos O with ho | ho <;>
    first
      | (subst hl; subst ho;
         simp [hw, selectRows, offsetClause, limitClause, boundCount])
      | (subst hl;
         simp [hw, ho, selectRows, offsetClause, limitClause, boundCount])
      | (subst ho;
         simp [hw, hl, Nat.ne_of_gt hl, selectRows, offsetClause, limitClause, boundCount])
      | simp [hw, hl, ho, Nat.ne_of_gt hl, selectRows, offsetClause, limitClause, boundCount]

/-- C9 as stated fails at L = 0: with limit 0 and offset 0 over a one-row list the
query selects that row, while the slice at positions 0 up to 0 is empty. -/
theorem GetCars_limit_zero_counterexample :
    selectRows (GetCarsClauses "" "" 0 0) (GetCarsQuery "" "" 0 0).2 [7] = some [7]
    ∧ selectRows (GetCarsClauses "" "" 0 0) (GetCarsQuery "" "" 0 0).2 [7]
        ≠ some (([7].drop 0).take 0) := by
  decide

/-! ## ValueToUpdate -/

/-- C2: for every CarResponse c the mapping returned by ValueToUpdate has an entry
for reg_number iff c.RegNum is non-empty, for mark iff c.Mark is non-empty, for
model iff c.Model is non-empty, for year iff c.Year is not 0 and for owner iff
c.Owner is not the zero PersonResponse, each entry holding that field of c; it has
no entry for id, all its keys are among those five names, and it is the empty
mapping when RegNum, Mark, Model, Year and Owner are all at their zero values. -/
theorem ValueToUpdate_entries (c : CarResponse) :
    c.ValueToUpdate.get? models.RegNum
        = (if c.RegNum ≠ "" then some (Value.str c.RegNum) else none)
    ∧ c.ValueToUpdate.get? models.Mark
        = (if c.Mark ≠ "" then some (Value.str c.Mark) else none)
    ∧ c.ValueToUpdate.get? models.Model
        = (if c.Model ≠ "" then some (Value.str c.Model) else none)
    ∧ c.ValueToUpdate.get? models.Year
        = (if c.Year ≠ 0 then some (Value.int c.Year) else none)
    ∧ c.ValueToUpdate.get? models.Owner
        = (if c.Owner ≠ PersonResponse.zero then some (Value.person c.Owner) else none)
    ∧ c.ValueToUpdate.get? models.ID = none
    ∧ (∀ e ∈ c.ValueToUpdate.entries,
        e.1 ∈ [models.RegNum, models.Mark, models.Model, models.Year, models.Owner])
    ∧ (c.RegNum = "" → c.Mark = "" → c.Model = "" → c.Year = 0 →
        c.Owner = PersonResponse.zero → c.ValueToUpdate = GoMap.make) := by
  have hE := ValueToUpdate_entries_eq c
  have hget : ∀ k : CarFilter, c.ValueToUpdate.get? k = c.ValueToUpdate.entries.lookup k :=
    fun _ => rfl
  refine ⟨?_, ?_, ?_, ?_, ?_, ?_, ?_, ?_⟩
  iterate 6
    rw [hget, hE]
    by_cases h1 : c.RegNum = "" <;> by_cases h2 : c.Mark = "" <;>
      by_cases h3 : c.Model = "" <;> by_cases h4 : c.Year = 0 <;>
      by_cases h5 : c.Owner = PersonResponse.zero <;>
      simp [h1, h2, h3, h4, h5, List.lookup, models.RegNum, models.Mark, models.Model,
        models.Year, models.Owner, models.ID]
  · rw [hE]
    intro e he
    simp only [List.mem_append] at he
    rcases he with (((he | he) | he) | he) | he <;> split_ifs at he <;> simp at he <;>
      subst he <;> simp
  · intro h1 h2 h3 h4 h5
    have hE2 : c.ValueToUpdate.entries = [] := by simp [hE, h1, h2, h3, h4, h5]
    cases hv : c.ValueToUpdate with
    | mk es =>
      rw [hv] at hE2
      simp only [GoMap.make]
      exact congrArg GoMap.mk hE2

/-- Witness of C2 at the all-zero CarResponse with identity c1. -/
theorem ValueToUpdate_entries_witness :
    (⟨"", "", "", 0, PersonResponse.zero, "c1"⟩ : CarResponse).ValueToUpdate = GoMap.make :=
  (ValueToUpdate_entries ⟨"", "", "", 0, PersonResponse.zero, "c1"⟩).2.2.2.2.2.2.2
    rfl rfl rfl rfl rfl

/-! ## UpdateCar -/

/-- C6: for every CarResponse c and every iteration order of the entries of
c.ValueToUpdate(), with keys k_1..k_n, the first statement built by UpdateCar is
UPDATE cars SET followed by the n assignments k_i = $i separated by a comma and a
blank, followed by WHERE id = $(n+1) and a semicolon; it opens the text handed to
Exec; the argument list has length n+1, its i-th element is the value of the update
set for k_i and its last element is c.ID; when the update set is empty the text is
UPDATE cars SET  WHERE id = $1; with the single argument c.ID. -/
theorem UpdateCar_first_statement (c : CarResponse) (entries : List (CarFilter × Value))
    (h : entries.Perm c.ValueToUpdate.entries) :
    (UpdateCarFirst entries c).1
        = "UPDATE cars SET " ++ ", ".intercalate (assignments entries)
            ++ " WHERE id = $" ++ toString (entries.length + 1) ++ "; "
    ∧ (∃ rest, (UpdateCarQuery entries c).1 = (UpdateCarFirst entries c).1 ++ rest)
    ∧ entries.length = c.ValueToUpdate.entries.length
    ∧ (UpdateCarQuery entries c).2.length = entries.length + 1
    ∧ (∀ (i : Nat) (hi : i < entries.length),
        (UpdateCarQuery entries c).2[i]? = some (entries.get ⟨i, hi⟩).2
        ∧ c.ValueToUpdate.get? (entries.get ⟨i, hi⟩).1 = some (entries.get ⟨i, hi⟩).2)
    ∧ (UpdateCarQuery entries c).2[entries.length]? = some (Value.str c.ID)
    ∧ (c.ValueToUpdate.entries = [] →
        UpdateCarFirst entries c = ("UPDATE cars SET  WHERE id = $1; ", [Value.str c.ID])) := by
  have hq := UpdateCarQuery_eq entries c
  have hf := UpdateCarFirst_eq entries c
  refine ⟨by rw [hf], ⟨_, by rw [hq]⟩, h.length_eq, by simp [hq, hf], ?_, by simp [hq, hf], ?_⟩
  · intro i hi
    constructor
    · simp [hq, hf, List.getElem?_append_left, hi]
    · have hm : entries.get ⟨i, hi⟩ ∈ c.ValueToUpdate.entries :=
        h.mem_iff.mp (List.get_mem entries i hi)
      exact lookup_of_mem_of_nodup _ (ValueToUpdate_keys_nodup c) _ _ hm
  · intro he
    rw [he] at h
    rw [List.Perm.eq_nil h]
    rfl

/-- Witness of C6: a CarResponse with mark and year set, iterated year first. -/
theorem UpdateCar_first_statement_witness :
    [(models.Year, Value.int 2010), (models.Mark, Value.str "Toyota")].Perm
        (⟨"", "Toyota", "", 2010, PersonResponse.zero, "c1"⟩ : CarResponse).ValueToUpdate.entries
    ∧ (UpdateCarFirst [(models.Year, Value.int 2010), (models.Mark, Value.str "Toyota")]
          ⟨"", "Toyota", "", 2010, PersonResponse.zero, "c1"⟩).1
        = "UPDATE cars SET year = $1, mark = $2 WHERE id = $3; " :=
  ⟨by decide,
   (UpdateCar_first_statement ⟨"", "Toyota", "", 2010, PersonResponse.zero, "c1"⟩
      [(models.Year, Value.int 2010), (models.Mark, Value.str "Toyota")] (by decide)).1⟩

/-- C7 at the failing input: for a CarResponse that sets only the owner John Doe
the text handed to Exec ends in the statement against person, and the argument list
binds $1 to the whole owner struct, $2 to the identity of the car, and has no third
element for $3. -/
theorem UpdateCar_person_arguments :
    (UpdateCarQuery
        (⟨"", "", "", 0, ⟨⟨"John", "Doe"⟩, "p1"⟩, "c1"⟩ : CarResponse).ValueToUpdate.entries
        ⟨"", "", "", 0, ⟨⟨"John", "Doe"⟩, "p1"⟩, "c1"⟩).1
      = "UPDATE cars SET owner = $1 WHERE id = $2; UPDATE person SET name = $1, surname = $2 WHERE id = $3"
    ∧ (UpdateCarQuery
        (⟨"", "", "", 0, ⟨⟨"John", "Doe"⟩, "p1"⟩, "c1"⟩ : CarResponse).ValueToUpdate.entries
        ⟨"", "", "", 0, ⟨⟨"John", "Doe"⟩, "p1"⟩, "c1"⟩).2
      = [Value.person ⟨⟨"John", "Doe"⟩, "p1"⟩, Value.str "c1"]
    ∧ (UpdateCarQuery
        (⟨"", "", "", 0, ⟨⟨"John", "Doe"⟩, "p1"⟩, "c1"⟩ : CarResponse).ValueToUpdate.entries
        ⟨"", "", "", 0, ⟨⟨"John", "Doe"⟩, "p1"⟩, "c1"⟩).2
      ≠ [Value.str "John", Value.str "Doe", Value.str "p1"] := by
  decide

/-- C8 (amended): for every CarResponse c and every iteration order, UpdateCar
emits the second UPDATE statement against person if and only if both c.Owner.Name
and c.Owner.Surname are non-empty; whenever it is emitted the owner entry is present
in the update set c.ValueToUpdate(). -/
theorem UpdateCar_emits_person_update (c : CarResponse)
    (entries : List (CarFilter × Value)) :
    (emitsPersonUpdate entries c ↔ (c.Owner.Name ≠ "" ∧ c.Owner.Surname ≠ ""))
    ∧ (emitsPersonUpdate entries c →
        c.ValueToUpdate.get? models.Owner = some (Value.person c.Owner)) := by
  have hiff : emitsPersonUpdate entries c ↔ (c.Owner.Name ≠ "" ∧ c.Owner.Surname ≠ "") := by
    unfold emitsPersonUpdate
    rw [UpdateCarQuery_eq]
    by_cases h : c.Owner.Name ≠ "" ∧ c.Owner.Surname ≠ ""
    · simp [h]
    · simp only [h, if_false, iff_false]
      intro he
      have hl := congrArg String.length he
      rw [String.length_append, String.length_append] at hl
      have hp : personUpdate.length = 55 := by decide
      have h0 : ("" : String).length = 0 := rfl
      omega
  refine ⟨hiff, fun he => ?_⟩
  have hn := (hiff.mp he).1
  have hz : c.Owner ≠ PersonResponse.zero := by
    intro e
    apply hn
    rw [e]
    rfl
  have hE := ValueToUpdate_entries_eq c
  show c.ValueToUpdate.entries.lookup models.Owner = _
  rw [hE]
  by_cases h1 : c.RegNum = "" <;> by_cases h2 : c.Mark = "" <;>
    by_cases h3 : c.Model = "" <;> by_cases h4 : c.Year = 0 <;>
    simp [h1, h2, h3, h4, hz, List.lookup, models.RegNum, models.Mark, models.Model,
      models.Year, models.Owner]

/-- Witness of C8: with owner John Doe the second statement is emitted and the
owner entry is present. -/
theorem UpdateCar_emits_person_update_witness :
    emitsPersonUpdate
        (⟨"", "", "", 0, ⟨⟨"John", "Doe"⟩, ""⟩, "c1"⟩ : CarResponse).ValueToUpdate.entries
        ⟨"", "", "", 0, ⟨⟨"John", "Doe"⟩, ""⟩, "c1"⟩
    ∧ (⟨"", "", "", 0, ⟨⟨"John", "Doe"⟩, ""⟩, "c1"⟩ : CarResponse).ValueToUpdate.get? models.Owner
        = some (Value.person ⟨⟨"John", "Doe"⟩, ""⟩) :=
  ⟨by decide,
   (UpdateCar_emits_person_update ⟨"", "", "", 0, ⟨⟨"John", "Doe"⟩, ""⟩, "c1"⟩
      (⟨"", "", "", 0, ⟨⟨"John", "Doe"⟩, ""⟩, "c1"⟩ : CarResponse).ValueToUpdate.entries).2
      (by decide)⟩

/-- C8 as stated fails: with owner name John and an empty surname the owner entry
is present in the update set, yet the second statement is not emitted. -/
theorem UpdateCar_owner_entry_counterexample :
    (⟨"", "", "", 0, ⟨⟨"John", ""⟩, ""⟩, "c1"⟩ : CarResponse).ValueToUpdate.get? models.Owner
        = some (Value.person ⟨⟨"John", ""⟩, ""⟩)
    ∧ ¬ emitsPersonUpdate
        (⟨"", "", "", 0, ⟨⟨"John", ""⟩, ""⟩, "c1"⟩ : CarResponse).ValueToUpdate.entries
        ⟨"", "", "", 0, ⟨⟨"John", ""⟩, ""⟩, "c1"⟩ := by
  decide

/-- C10: with the storage Exec call as an oracle, UpdateCar returns the storage
error unchanged when Exec fails; when Exec succeeds it returns the error
car with id c.ID not found if and only if the affected-row count is 0, and returns
success otherwise. -/
theorem UpdateCar_result (exec : String → List Value → Except String Int)
    (entries : List (CarFilter × Value)) (c : CarResponse) :
    (∀ e, exec (UpdateCarQuery entries c).1 (UpdateCarQuery entries c).2 = .error e →
        UpdateCar exec entries c = some e)
    ∧ (∀ n, exec (UpdateCarQuery entries c).1 (UpdateCarQuery entries c).2 = .ok n →
        (UpdateCar exec entries c = some ("car with id " ++ c.ID ++ " not found") ↔ n = 0)
        ∧ (n ≠ 0 → UpdateCar exec entries c = none)) := by
  constructor
  · intro e he
    simp [UpdateCar, he]
  · intro n hn
    by_cases h0 : n = 0 <;> simp [UpdateCar, hn, h0]

/-- Witness of C10: an oracle that fails, one that reports 0 rows and one that
reports 1 row. -/
theorem UpdateCar_result_witness :
    UpdateCar (fun _ _ => .error "connection lost") [] ⟨"", "", "", 0, PersonResponse.zero, "c1"⟩
        = some "connection lost"
    ∧ UpdateCar (fun _ _ => .ok 0) [] ⟨"", "", "", 0, PersonResponse.zero, "c1"⟩
        = some "car with id c1 not found"
    ∧ UpdateCar (fun _ _ => .ok 1) [] ⟨"", "", "", 0, PersonResponse.zero, "c1"⟩ = none :=
  ⟨(UpdateCar_result (fun _ _ => .error "connection lost") []
      ⟨"", "", "", 0, PersonResponse.zero, "c1"⟩).1 "connection lost" rfl,
   ((UpdateCar_result (fun _ _ => .ok 0) []
      ⟨"", "", "", 0, PersonResponse.zero, "c1"⟩).2 0 rfl).1.mpr rfl,
   ((UpdateCar_result (fun _ _ => .ok 1) []
      ⟨"", "", "", 0, PersonResponse.zero, "c1"⟩).2 1 rfl).2 (by decide)⟩

/-! ## InsertCar -/

/-- C3: with the store as explicit state, if no two person rows share the same
(name, surname) pair before InsertCar, none do after it (whatever the generated ids
and whether or not a storage call fails); and without storage failure two successive
InsertCar calls whose owners have the same (name, surname), starting from a store
with no such person, both succeed, leave exactly one person row with that pair, the
one created by the first call, and add exactly two car rows, both of whose owner
column is that person id. -/
theorem InsertCar_owner_dedup (st : Store) :
    (∀ (fl : Faults) (car : CarRequest) (pid cid : String),
        (ownerKeys st).Nodup → (ownerKeys (InsertCar fl st car pid cid).1).Nodup)
    ∧ (∀ (car1 car2 : CarRequest) (pid1 cid1 pid2 cid2 : String),
        car2.Owner = car1.Owner →
        (car1.Owner.Name, car1.Owner.Surname) ∉ ownerKeys st →
        (InsertCar Faults.none st car1 pid1 cid1).2 = none
        ∧ (InsertCar Faults.none (InsertCar Faults.none st car1 pid1 cid1).1
              car2 pid2 cid2).2 = none
        ∧ (InsertCar Faults.none (InsertCar Faults.none st car1 pid1 cid1).1
              car2 pid2 cid2).1.person
            = st.person ++ [⟨pid1, car1.Owner.Name, car1.Owner.Surname⟩]
        ∧ (InsertCar Faults.none (InsertCar Faults.none st car1 pid1 cid1).1
              car2 pid2 cid2).1.person.filter
              (fun p => p.name = car1.Owner.Name ∧ p.surname = car1.Owner.Surname)
            = [⟨pid1, car1.Owner.Name, car1.Owner.Surname⟩]
        ∧ (InsertCar Faults.none (InsertCar Faults.none st car1 pid1 cid1).1
              car2 pid2 cid2).1.cars
            = st.cars ++ [⟨cid1, car1.RegNum, car1.Mark, car1.Model, car1.Year, pid1⟩,
                ⟨cid2, car2.RegNum, car2.Mark, car2.Model, car2.Year, pid1⟩]) := by
  constructor
  · intro fl car pid cid hnd
    rcases InsertCar_person fl st car pid cid with h | ⟨hno, h⟩
    · simpa [ownerKeys, h] using hnd
    · simp only [ownerKeys, h, List.map_append, List.map_cons, List.map_nil]
      refine (List.nodup_append.mpr ⟨hnd, List.nodup_singleton _, ?_⟩)
      intro k hk hk2
      simp only [List.mem_singleton] at hk2
      simp only [ownerKeys, List.mem_map] at hk
      obtain ⟨p, hp, hpk⟩ := hk
      rw [hk2] at hpk
      exact hno p hp ⟨congrArg Prod.fst hpk, congrArg Prod.snd hpk⟩
  · intro car1 car2 pid1 cid1 pid2 cid2 hown habs
    have hno : ∀ p ∈ st.person,
        ¬ (p.name = car1.Owner.Name ∧ p.surname = car1.Owner.Surname) := by
      intro p hp hm
      apply habs
      simp only [ownerKeys, List.mem_map]
      exact ⟨p, hp, by rw [hm.1, hm.2]⟩
    have h1 := InsertCar_absent st car1 pid1 cid1 habs
    have hfind : (st.person ++ [(⟨pid1, car1.Owner.Name, car1.Owner.Surname⟩ : PersonRow)]).find?
        (fun p => p.name = car2.Owner.Name ∧ p.surname = car2.Owner.Surname)
        = some ⟨pid1, car1.Owner.Name, car1.Owner.Surname⟩ := by
      rw [hown, List.find?_append]
      have hn : st.person.find?
          (fun p => p.name = car1.Owner.Name ∧ p.surname = car1.Owner.Surname) = none := by
        rw [List.find?_eq_none]
        intro p hp hm
        exact hno p hp (by simpa using hm)
      rw [hn]
      simp
    have h2 := InsertCar_found (InsertCar Faults.none st car1 pid1 cid1).1 car2 pid2 cid2
      ⟨pid1, car1.Owner.Name, car1.Owner.Surname⟩ (by rw [h1]; exact hfind)
    rw [h2, h1]
    refine ⟨rfl, rfl, rfl, ?_, by simp⟩
    simp only [List.filter_append]
    have hfil : st.person.filter
        (fun p => p.name = car1.Owner.Name ∧ p.surname = car1.Owner.Surname) = [] := by
      rw [List.filter_eq_nil_iff]
      intro p hp hm
      exact hno p hp (by simpa using hm)
    rw [hfil]
    simp

/-- Witness of C3: two cars of John Doe inserted into a store that holds one other
person. -/
theorem InsertCar_owner_dedup_witness :
    (ownerKeys ⟨[⟨"p0", "Ann", "Lee"⟩], []⟩).Nodup
    ∧ (ownerKeys (InsertCar Faults.none ⟨[⟨"p0", "Ann", "Lee"⟩], []⟩
          ⟨"AA1", "Toyota", "Corolla", 2010, ⟨"John", "Doe"⟩⟩ "p1" "c1").1).Nodup
    ∧ (InsertCar Faults.none (InsertCar Faults.none ⟨[⟨"p0", "Ann", "Lee"⟩], []⟩
          ⟨"AA1", "Toyota", "Corolla", 2010, ⟨"John", "Doe"⟩⟩ "p1" "c1").1
          ⟨"BB2", "Honda", "Civic", 2012, ⟨"John", "Doe"⟩⟩ "p2" "c2").1.person
        = [⟨"p0", "Ann", "Lee"⟩, ⟨"p1", "John", "Doe"⟩]
    ∧ (InsertCar Faults.none (InsertCar Faults.none ⟨[⟨"p0", "Ann", "Lee"⟩], []⟩
          ⟨"AA1", "Toyota", "Corolla", 2010, ⟨"John", "Doe"⟩⟩ "p1" "c1").1
          ⟨"BB2", "Honda", "Civic", 2012, ⟨"John", "Doe"⟩⟩ "p2" "c2").1.cars
        = [⟨"c1", "AA1", "Toyota", "Corolla", 2010, "p1"⟩,
           ⟨"c2", "BB2", "Honda", "Civic", 2012, "p1"⟩] :=
  ⟨by decide,
   (InsertCar_owner_dedup ⟨[⟨"p0", "Ann", "Lee"⟩], []⟩).1 Faults.none
      ⟨"AA1", "Toyota", "Corolla", 2010, ⟨"John", "Doe"⟩⟩ "p1" "c1" (by decide),
   ((InsertCar_owner_dedup ⟨[⟨"p0", "Ann", "Lee"⟩], []⟩).2
      ⟨"AA1", "Toyota", "Corolla", 2010, ⟨"John", "Doe"⟩⟩
      ⟨"BB2", "Honda", "Civic", 2012, ⟨"John", "Doe"⟩⟩ "p1" "c1" "p2" "c2" rfl
      (by decide)).2.2.1,
   ((InsertCar_owner_dedup ⟨[⟨"p0", "Ann", "Lee"⟩], []⟩).2
      ⟨"AA1", "Toyota", "Corolla", 2010, ⟨"John", "Doe"⟩⟩
      ⟨"BB2", "Honda", "Civic", 2012, ⟨"John", "Doe"⟩⟩ "p1" "c1" "p2" "c2" rfl
      (by decide)).2.2.2.2⟩

end GoTz
